import Mathlib

/-!
Shallow embedding of the routing/composition core of a remote-debugging
multiplexing gateway (leaf backend adapter, adapter collection, iOS
device-discovery collection), together with theorems settling the frozen
claims about its specification.

JavaScript-specific behaviors are modelled explicitly: `parseInt`,
`String.prototype.split`, `String.prototype.indexOf(c, from)`,
`String.prototype.substr`, first-occurrence `replace`, truthiness of
strings (empty string is falsy, modelled as `= ""`), and `Map` insertion
order (association lists where `set` on a fresh key appends).
-/

namespace RDA

/-- Scan a character list for `c`, reporting the absolute position given the
position `pos` of the list head (models the loop inside
`String.prototype.indexOf`). -/
def jsIndexOfAux (c : Char) : List Char → Nat → Option Nat
  | [], _ => none
  | x :: xs, pos => if x = c then some pos else jsIndexOfAux c xs (pos + 1)

/-- JavaScript `s.indexOf(c, start)`, returning `none` instead of `-1`. -/
def jsIndexOfFrom (s : String) (c : Char) (start : Nat) : Option Nat :=
  jsIndexOfAux c (s.data.drop start) start

/-- JavaScript `s.substr(start, len)`. -/
def jsSubstr (s : String) (start len : Nat) : String :=
  String.mk ((s.data.drop start).take len)

/-- JavaScript `s.substr(start)` (to the end of the string). -/
def jsSubstrFrom (s : String) (start : Nat) : String :=
  String.mk (s.data.drop start)

/-- Numeric value of a list of decimal digit characters. -/
def jsDigitsVal (cs : List Char) : Nat :=
  cs.foldl (fun n c => n * 10 + (c.toNat - 48)) 0

/-- JavaScript `parseInt(s, 10)`: skip leading whitespace, read an optional
sign, then the longest prefix of decimal digits; `none` models `NaN`. -/
def jsParseInt (s : String) : Option Int :=
  let cs := s.data.dropWhile (fun c => c == ' ' || c == '\t' || c == '\n' || c == '\r')
  let signAndRest : Int × List Char :=
    match cs with
    | '-' :: rest => (-1, rest)
    | '+' :: rest => (1, rest)
    | rest => (1, rest)
  let digits := signAndRest.2.takeWhile Char.isDigit
  if digits.isEmpty then none
  else some (signAndRest.1 * (jsDigitsVal digits : Int))

/-- Accumulating worker for `jsSplitChar`. -/
def jsSplitCharAux (c : Char) : List Char → List Char → List String
  | [], acc => [String.mk acc.reverse]
  | x :: xs, acc =>
    if x = c then String.mk acc.reverse :: jsSplitCharAux c xs []
    else jsSplitCharAux c xs (x :: acc)

/-- JavaScript `s.split(c)` for a single-character separator: `""` splits to
`[""]`, a trailing separator yields a trailing empty piece. -/
def jsSplitChar (s : String) (c : Char) : List String :=
  jsSplitCharAux c s.data []

/-- Test whether a character list begins with the pattern list. -/
def listStartsWith : List Char → List Char → Bool
  | _, [] => true
  | [], _ :: _ => false
  | x :: xs, p :: ps => x = p && listStartsWith xs ps

/-- Replace the first occurrence of the (non-empty) pattern, as JavaScript
`s.replace(pat, rep)` does for string patterns. -/
def replaceFirstAux (pat rep : List Char) : List Char → List Char
  | [] => []
  | c :: cs =>
    if listStartsWith (c :: cs) pat && !pat.isEmpty then
      rep ++ (c :: cs).drop pat.length
    else
      c :: replaceFirstAux pat rep cs

/-- JavaScript `s.replace(pat, rep)` (first occurrence only). -/
def jsReplaceFirst (s pat rep : String) : String :=
  String.mk (replaceFirstAux pat.data rep.data s.data)

/-- Association-list lookup (JavaScript `Map.get`; insertion order kept). -/
def alookup [DecidableEq κ] : List (κ × α) → κ → Option α
  | [], _ => none
  | (k, v) :: rest, key => if k = key then some v else alookup rest key

/-- Overwrite the value stored at `k`, keeping its position (the object held
in a JavaScript `Map` is mutated in place). -/
def replaceEntry [DecidableEq κ] : List (κ × α) → κ → α → List (κ × α)
  | [], _, _ => []
  | (k1, v1) :: rest, k, v =>
    if k1 = k then (k, v) :: replaceEntry rest k v
    else (k1, v1) :: replaceEntry rest k v

/-- JavaScript `Map.set`: overwrite in place when the key exists, otherwise
append at the end (insertion order). -/
def mapSet [DecidableEq κ] (m : List (κ × α)) (k : κ) (v : α) : List (κ × α) :=
  if (alookup m k).isSome then replaceEntry m k v else m ++ [(k, v)]

/-- Device record reported by the `ios_webkit_debug_proxy` enumeration
endpoint (`IIOSDeviceTarget` in `adapterInterfaces`); absent string fields
are modelled as `""` (JavaScript falsy). -/
structure IIOSDeviceTarget where
  deviceId : String := ""
  deviceOSVersion : String := ""
  url : String := ""
  version : String := ""
  deriving Repr, DecidableEq

/-- One discoverable target's descriptor (`ITarget` in
`adapterInterfaces`); absent string fields are modelled as `""`, and the
opaque caller-supplied `metadata` is the originating device record when
present. -/
structure ITarget where
  id : String := ""
  title : String := ""
  description : String := ""
  faviconUrl : String := ""
  url : String := ""
  webSocketDebuggerUrl : String := ""
  adapterType : String := ""
  type : String := ""
  metadata : Option IIOSDeviceTarget := none
  devtoolsFrontendUrl : String := ""
  deriving Repr, DecidableEq

/-- A live bridged session (the `Target` collaborator).  `sid` models
JavaScript object identity: the owning adapter's id paired with a counter
fresh at creation.  `endpoint` records the real backend socket URL the
session connected to; `clientSocket` is the currently bound client
socket (an opaque numeric handle). -/
structure Target where
  sid : String × Nat
  targetId : String
  data : ITarget
  clientSocket : Nat
  endpoint : String
  deriving Repr, DecidableEq

/-- State of one leaf `Adapter`: its id and proxy base URL, the Descriptor
Registry `_targetIdToTargetDataMap`, the Session Registry `_targetMap`,
a counter minting session object identities, and a count of backend
connections established so far. -/
structure AdapterState where
  aid : String
  proxyUrl : String
  dataMap : List (String × ITarget)
  targetMap : List (String × Target)
  nextSid : Nat
  backendConnections : Nat
  deriving Repr, DecidableEq

/-- A freshly constructed leaf adapter (`new Adapter(id, proxyUrl, opts)`):
empty registries. -/
def initAdapterState (id proxyUrl : String) : AdapterState :=
  { aid := id, proxyUrl := proxyUrl, dataMap := [], targetMap := []
    nextSid := 0, backendConnections := 0 }

/-- The `_adapterType` computation in the `Adapter` constructor: if the id
has a second `/`, an underscore followed by the first path segment,
otherwise the id with its first `/` replaced by `_`. -/
def deriveAdapterType (id : String) : String :=
  match jsIndexOfFrom id '/' 1 with
  | some index => "_" ++ jsSubstr id 1 (index - 1)
  | none => jsReplaceFirst id "/" "_"

/-- The fixed external viewer template `Adapter.setTargetInfo` embeds the
rewritten session URL into. -/
def devtoolsUrlFor (wsUrl : String) : String :=
  "https://chrome-devtools-frontend.appspot.com/serve_file/@fcea73228632975e052eb90fcf6cd1752d3b42b4/inspector.html?experiments=true&remoteFrontend=screencast&ws=" ++ wsUrl

namespace Adapter

/-- `Adapter.setTargetInfo`: choose the id (`t.id || t.webSocketDebuggerUrl`),
stamp adapter type, default kind `page` and metadata, deep-copy the
descriptor (still holding the real endpoint) for the Descriptor Registry,
then overwrite the public session and viewer URLs.  Returns the rewritten
public descriptor together with the registry entry written (`none` on the
caught error path, which returns the minimal fallback descriptor). -/
def setTargetInfo (aid adapterType proxyUrl : String) (t : ITarget)
    (metadata : Option IIOSDeviceTarget) : ITarget × Option (String × ITarget) :=
  let id := if t.id ≠ "" then t.id else t.webSocketDebuggerUrl
  if id = "" then
    ({ id := "unknown", adapterType := adapterType, type := "page"
       metadata := metadata
       webSocketDebuggerUrl := proxyUrl ++ aid ++ "/unknown"
       devtoolsFrontendUrl := ""
       description := t.description, faviconUrl := t.faviconUrl
       title := if t.title ≠ "" then t.title else "Unknown Target"
       url := t.url }, none)
  else
    let t1 : ITarget :=
      { t with id := id, adapterType := adapterType
               type := if t.type ≠ "" then t.type else "page"
               metadata := metadata }
    let wsUrl := jsReplaceFirst proxyUrl "ws://" "" ++ aid ++ "/" ++ id
    let pub : ITarget :=
      { t1 with webSocketDebuggerUrl := proxyUrl ++ aid ++ "/" ++ id
                devtoolsFrontendUrl := devtoolsUrlFor wsUrl }
    (pub, some (id, t1))

/-- Parsed shape of the body delivered to `Adapter.getTargets`'s request
callback: a parse failure, a JSON value that is not an array, or an array
of (possibly null) raw target objects. -/
inductive BodyVal where
  | invalid
  | notArray
  | arrayOf (ts : List (Option ITarget))
  deriving Repr, DecidableEq

/-- Outcome of the discovery HTTP request: the overall 10s timeout firing,
a request error, a missing response object, or a response with a status
code and an optional (falsy-when-`none`) body. -/
inductive HttpResult where
  | timeout
  | err
  | noResp
  | resp (status : Nat) (body : Option BodyVal)
  deriving Repr, DecidableEq

/-- The `rawTargets.forEach` loop of `Adapter.getTargets`: skip null
elements and elements with neither an id nor a backend socket URL, rewrite
the rest via `setTargetInfo`, threading the Descriptor Registry writes. -/
def processRawTargets (st : AdapterState) (metadata : Option IIOSDeviceTarget) :
    List (Option ITarget) → AdapterState × List ITarget
  | [] => (st, [])
  | t? :: rest =>
    match t? with
    | none => processRawTargets st metadata rest
    | some t =>
      if t.id ≠ "" ∨ t.webSocketDebuggerUrl ≠ "" then
        let r := setTargetInfo st.aid (deriveAdapterType st.aid) st.proxyUrl t metadata
        let st1 :=
          match r.2 with
          | some kv => { st with dataMap := mapSet st.dataMap kv.1 kv.2 }
          | none => st
        let rec2 := processRawTargets st1 metadata rest
        (rec2.1, r.1 :: rec2.2)
      else
        processRawTargets st metadata rest

/-- `Adapter.getTargets`: every failure mode of the discovery request
(timeout, request error, missing response, non-200 status, empty body,
JSON parse failure, body not an array) resolves with an empty list and
leaves the adapter untouched; a JSON array is filtered and rewritten. -/
def getTargets (st : AdapterState) (res : HttpResult)
    (metadata : Option IIOSDeviceTarget) : List ITarget × AdapterState :=
  match res with
  | .timeout => ([], st)
  | .err => ([], st)
  | .noResp => ([], st)
  | .resp status body =>
    if status ≠ 200 then ([], st)
    else
      match body with
      | none => ([], st)
      | some .invalid => ([], st)
      | some .notArray => ([], st)
      | some (.arrayOf ts) =>
        let r := processRawTargets st metadata ts
        (r.2, r.1)

/-- `Adapter.connectTo`: validate the arguments, fail fast on an unknown
Target Id, rebind the existing session's client socket when one is live,
otherwise construct a new session from the stored descriptor's real
endpoint, register it, and count the backend connection it opens. -/
def connectTo (st : AdapterState) (targetId : String) (wsFrom : Option Nat) :
    Option Target × AdapterState :=
  if targetId = "" then (none, st)
  else
    match wsFrom with
    | none => (none, st)
    | some ws =>
      match alookup st.dataMap targetId with
      | none => (none, st)
      | some _ =>
        match alookup st.targetMap targetId with
        | some existing =>
          let updated := { existing with clientSocket := ws }
          (some updated, { st with targetMap := replaceEntry st.targetMap targetId updated })
        | none =>
          match alookup st.dataMap targetId with
          | none => (none, st)
          | some targetData =>
            let t : Target :=
              { sid := (st.aid, st.nextSid), targetId := targetId
                data := targetData, clientSocket := ws
                endpoint := targetData.webSocketDebuggerUrl }
            (some t,
             { st with targetMap := st.targetMap ++ [(targetId, t)]
                       nextSid := st.nextSid + 1
                       backendConnections := st.backendConnections + 1 })

/-- State of the managed-process slot of one adapter (`_proxyProc` plus a
counter minting process-handle identities). -/
structure ProcState where
  proxyProc : Option Nat
  nextProc : Nat
  deriving Repr, DecidableEq

/-- First event observed after `spawn`: an early `error`, `close` or `exit`
event (each rejects the start), or the 200ms startup timer firing first
(the start resolves). -/
inductive SpawnEvent where
  | earlyError
  | earlyClose
  | earlyExit
  | started
  deriving Repr, DecidableEq

/-- Settled outcome of the promise `Adapter.spawnProcess` returns. -/
inductive SpawnOutcome where
  | resolved (handle : Nat)
  | rejected (msg : String)
  deriving Repr, DecidableEq

/-- `Adapter.spawnProcess`: reject when a managed process handle already
exists or no path is given; otherwise store a fresh handle in
`_proxyProc` (kept even when the start later fails) and settle according
to the first observed process event. -/
def spawnProcess (st : ProcState) (path : String) (ev : SpawnEvent) :
    SpawnOutcome × ProcState :=
  match st.proxyProc with
  | some _ => (.rejected "adapter.spawnProcess.error: process already started", st)
  | none =>
    if path = "" then (.rejected "adapter.spawnProcess.error: no path provided", st)
    else
      let handle := st.nextProc
      let st2 : ProcState := { proxyProc := some handle, nextProc := st.nextProc + 1 }
      match ev with
      | .started => (.resolved handle, st2)
      | .earlyError => (.rejected "adapter.spawnProcess.error", st2)
      | .earlyClose => (.rejected "adapter.spawnProcess.close", st2)
      | .earlyExit => (.rejected "adapter.spawnProcess.exit", st2)

/-- `Adapter.stop`: idempotently terminate any managed process and clear
the handle. -/
def stop (st : ProcState) : ProcState :=
  { st with proxyProc := none }

end Adapter

namespace AdapterCollection

/-- `AdapterCollection.getWebSocketId`: split an inbound address at the
first `/` found at offset 1 or later.  Note the namespace piece is
`url.substr(0, index)` — it keeps the address's leading character (the
leading `/`), and the remainder after the separator is passed through
verbatim. -/
def getWebSocketId (url : String) : Option (String × String) :=
  if url = "" then none
  else
    match jsIndexOfFrom url '/' 1 with
    | none => none
    | some index =>
      let adapterId := jsSubstr url 0 index
      let targetId := jsSubstrFrom url (index + 1)
      if adapterId = "" ∨ targetId = "" then none
      else some (adapterId, targetId)

/-- Behavior of one child's `getTargets` as observed by the collection: a
function from the per-call metadata to either a resolved target list or a
rejection. -/
def ChildBehavior := Option IIOSDeviceTarget → Except String (List ITarget)

/-- The metadata argument handed to `AdapterCollection.getTargets`: absent
(falsy), a single value shared by every child, or an ordered array
distributed per child index. -/
inductive MetaArg where
  | nullV
  | single (m : IIOSDeviceTarget)
  | arr (ms : List IIOSDeviceTarget)

/-- Per-child metadata chosen inside the `forEach` loop:
`Array.isArray(metadata) ? metadata[index] : metadata`, with a falsy
metadata argument passed through as null. -/
def childMeta (meta : MetaArg) (index : Nat) : Option IIOSDeviceTarget :=
  match meta with
  | .nullV => none
  | .single m => some m
  | .arr ms => ms[index]?

/-- The `forEach` loop of `AdapterCollection.getTargets`: one promise per
child in registry iteration order, each child receiving its per-index
metadata and a rejection being caught into an empty list. -/
def collectPromises : List (String × ChildBehavior) → Nat → MetaArg → List (List ITarget)
  | [], _, _ => []
  | child :: rest, index, meta =>
    let safe :=
      match child.2 (childMeta meta index) with
      | .ok ts => ts
      | .error _ => []
    safe :: collectPromises rest (index + 1) meta

/-- One child's contribution to a collection's discovery result: its
resolved target list, or the empty list when its discovery fails. -/
def childContribution (beh : ChildBehavior) (m : Option IIOSDeviceTarget) : List ITarget :=
  match beh m with
  | .ok ts => ts
  | .error _ => []

/-- `AdapterCollection.getTargets`: fan out to every child (the collection
does not poll its own discovery endpoint), catch each child's failure as
an empty contribution, and concatenate the results in registry iteration
order. -/
def getTargets (children : List (String × ChildBehavior)) (meta : MetaArg) : List ITarget :=
  let promises := collectPromises children 0 meta
  if promises.isEmpty then []
  else promises.foldl (fun all ts => all ++ ts) []

/-- Overwrite a named child's state after delegation returned its updated
state. -/
def updateChild (children : List (String × AdapterState)) (aid : String)
    (st : AdapterState) : List (String × AdapterState) :=
  replaceEntry children aid st

/-- `AdapterCollection.connectTo`: decode the inbound address, look the
named child up in the Child Adapter Registry, and delegate the verbatim
remainder to that child's `connectTo` as its own Target Id.  Decoding
failure or an unknown child yields `none`. -/
def connectTo (children : List (String × AdapterState)) (url : String)
    (wsFrom : Option Nat) : Option Target × List (String × AdapterState) :=
  if url = "" then (none, children)
  else
    match wsFrom with
    | none => (none, children)
    | some _ =>
      match getWebSocketId url with
      | none => (none, children)
      | some id =>
        if id.1 = "" ∨ id.2 = "" then (none, children)
        else
          match alookup children id.1 with
          | none => (none, children)
          | some child =>
            let r := Adapter.connectTo child id.2 wsFrom
            (r.1, updateChild children id.1 r.2)

end AdapterCollection

/-- The protocol-version translators (`IOS8Protocol` the legacy one,
`IOS9Protocol` the middle generation, `IOS12Protocol` the newest). -/
inductive IOSProtocol where
  | ios8
  | ios9
  | ios12
  deriving Repr, DecidableEq

namespace IOSAdapter

/-- `IOSAdapter.getProtocolFor`: pick a translator from the session's
normalized version string.  `targetPresent` models the `!target` guard
(the only way the selection yields no translator). -/
def getProtocolFor (version : String) (targetPresent : Bool) : Option IOSProtocol :=
  if version = "" then some .ios9
  else if targetPresent = false then none
  else
    match jsSplitChar version '.' with
    | [] => some .ios9
    | majorStr :: rest =>
      match jsParseInt majorStr with
      | none => some .ios9
      | some major =>
        if major ≤ 8 then some .ios8
        else
          match rest with
          | [] => some .ios9
          | minorStr :: _ =>
            match jsParseInt minorStr with
            | none => some .ios9
            | some minor =>
              if major > 12 ∨ (major ≥ 12 ∧ minor ≥ 2) then some .ios12
              else some .ios9

/-- Translator selection as the amended specification states it: legacy
when the parsed major version is at most 8; newest when a minor component
exists and parses and either the major version exceeds 12 or it equals 12
with minor at least 2; the middle generation in every other case,
including every version string whose major component fails to parse. -/
def protocolChoice (version : String) : IOSProtocol :=
  let parts := jsSplitChar version '.'
  match jsParseInt (parts.headD "") with
  | none => .ios9
  | some major =>
    if major ≤ 8 then .ios8
    else
      match parts[1]? with
      | none => .ios9
      | some minorStr =>
        match jsParseInt minorStr with
        | none => .ios9
        | some minor =>
          if major > 12 ∨ (major = 12 ∧ minor ≥ 2) then .ios12
          else .ios9

/-- OS-version normalization of one enumerated device (the body of the
`devices.forEach` loop in `IOSAdapter.processDeviceVersions`): a simulator
gets the fixed fallback `9.3.0` regardless of any reported version, a
device with a reported OS version uses it as-is, and a device with
neither gets the same fixed fallback. -/
def normalizeDevice (d : IIOSDeviceTarget) : IIOSDeviceTarget :=
  { d with version :=
      if d.deviceId = "SIMULATOR" then "9.3.0"
      else if d.deviceOSVersion ≠ "" then d.deviceOSVersion
      else "9.3.0" }

/-- `IOSAdapter.processDeviceVersions`: normalize each device, skipping a
null (individually failing) device without aborting the batch. -/
def processDeviceVersions : List (Option IIOSDeviceTarget) → List IIOSDeviceTarget
  | [] => []
  | none :: rest => processDeviceVersions rest
  | some d :: rest => normalizeDevice d :: processDeviceVersions rest

/-- `IOSAdapter.createDeviceAdapters`: for every device carrying a device
id and not yet present in the Child Adapter Registry under the derived
Namespace Id (the parent's id, an underscore, and the device id), parse
the device-assigned port from the device's reported endpoint URL
(malformed URL or unparsable/non-positive port skips the device) and
register a freshly constructed leaf adapter.  The device adapters are
constructed without a managed executable, so their `start` always
succeeds and registration follows. -/
def createDeviceStep (parentId proxyUrl : String)
    (reg : List (String × AdapterState)) (d : IIOSDeviceTarget) :
    List (String × AdapterState) :=
  if d.deviceId = "" then reg
  else
    let adapterId := parentId ++ "_" ++ d.deviceId
    if (alookup reg adapterId).isSome then reg
    else if d.url = "" then reg
    else
      match jsSplitChar d.url ':' with
      | [] => reg
      | [_] => reg
      | _ :: portStr :: _ =>
        match jsParseInt portStr with
        | none => reg
        | some port =>
          if port ≤ 0 then reg
          else reg ++ [(adapterId, initAdapterState adapterId proxyUrl)]

/-- The `devices.forEach` loop of `IOSAdapter.createDeviceAdapters`,
folding `createDeviceStep` over the device list. -/
def createDeviceAdapters (parentId proxyUrl : String)
    (registry : List (String × AdapterState)) (devices : List IIOSDeviceTarget) :
    List (String × AdapterState) :=
  devices.foldl (createDeviceStep parentId proxyUrl) registry

/-- State of the `IOSAdapter`: the inherited Child Adapter Registry and the
Protocol Binding map `_protocolMap`, keyed by session object identity. -/
structure IOSState where
  children : List (String × AdapterState)
  protocolMap : List ((String × Nat) × IOSProtocol)
  deriving Repr, DecidableEq

/-- `IOSAdapter.connectTo`: delegate to the base collection's routing to
obtain (or reuse) a session; then, only when that session object has no
Protocol Binding yet, select a translator from the owning device's
normalized version carried in the stored descriptor's metadata and bind
it.  Missing metadata or version logs and still returns the session. -/
def connectTo (st : IOSState) (url : String) (wsFrom : Option Nat) :
    Option Target × IOSState :=
  if url = "" then (none, st)
  else
    match wsFrom with
    | none => (none, st)
    | some _ =>
      let r := AdapterCollection.connectTo st.children url wsFrom
      match r.1 with
      | none => (none, { st with children := r.2 })
      | some target =>
        let st2 : IOSState := { children := r.2, protocolMap := st.protocolMap }
        if (alookup st2.protocolMap target.sid).isSome then (some target, st2)
        else
          match target.data.metadata with
          | none => (some target, st2)
          | some deviceTarget =>
            if deviceTarget.version = "" then (some target, st2)
            else
              match getProtocolFor deviceTarget.version true with
              | some protocol =>
                (some target,
                 { st2 with protocolMap := st2.protocolMap ++ [(target.sid, protocol)] })
              | none => (some target, st2)

end IOSAdapter

/-- Sample device used by witness theorems. -/
def dev0 : IIOSDeviceTarget :=
  { deviceId := "d1", deviceOSVersion := "12.2", url := "localhost:9222", version := "12.2" }

/-- Sample simulator device used by witness theorems. -/
def simDev : IIOSDeviceTarget := { deviceId := "SIMULATOR" }

/-- Sample raw descriptor as a discovery endpoint would report it. -/
def rawT0 : ITarget :=
  { id := "page1", title := "Example", url := "http://localhost/a"
    webSocketDebuggerUrl := "ws://127.0.0.1:9999/devtools/page/1" }

/-- Sample stored descriptor (original endpoint, device metadata attached). -/
def storedT0 : ITarget :=
  { id := "t1", webSocketDebuggerUrl := "ws://127.0.0.1:9999/devtools/page/1"
    metadata := some dev0 }

/-- Sample leaf adapter holding one known target and no live session. -/
def leafSt0 : AdapterState :=
  { aid := "/ios_d1", proxyUrl := "ws://localhost:9000"
    dataMap := [("t1", storedT0)], targetMap := [], nextSid := 0, backendConnections := 0 }

/-- Sample device-discovery collection owning `leafSt0` and no bindings. -/
def iosSt0 : IOSAdapter.IOSState := { children := [("/ios_d1", leafSt0)], protocolMap := [] }

/-- The session `iosSt0` yields for address `/ios_d1/t1` on client socket 3. -/
def expT0 : Target :=
  { sid := ("/ios_d1", 0), targetId := "t1", data := storedT0, clientSocket := 3
    endpoint := "ws://127.0.0.1:9999/devtools/page/1" }

/-- Sample rewritten descriptors contributed by healthy children. -/
def tA1 : ITarget := { id := "a1" }

/-- Second sample descriptor of the first healthy child. -/
def tA2 : ITarget := { id := "a2" }

/-- Sample descriptor contributed by the third child. -/
def tC1 : ITarget := { id := "c1" }

theorem alookup_eq_none [DecidableEq κ] :
    ∀ (m : List (κ × α)) (k : κ), alookup m k = none ↔ k ∉ m.map Prod.fst
  | [], k => by simp [alookup]
  | (k1, v1) :: rest, k => by
    by_cases h : k1 = k
    · subst h; simp [alookup]
    · simp only [alookup, if_neg h, List.map_cons, List.mem_cons]
      rw [alookup_eq_none rest k]
      constructor
      · intro hr hor
        rcases hor with h1 | h2
        · exact h h1.symm
        · exact hr h2
      · intro hnk hm
        exact hnk (Or.inr hm)

theorem alookup_replaceEntry [DecidableEq κ] :
    ∀ (m : List (κ × α)) (k : κ) (v : α),
      alookup (replaceEntry m k v) k = if (alookup m k).isSome then some v else none
  | [], k, v => by simp [alookup, replaceEntry]
  | (k1, v1) :: rest, k, v => by
    by_cases h : k1 = k
    · subst h
      simp [alookup, replaceEntry]
    · simp only [replaceEntry, if_neg h, alookup]
      exact alookup_replaceEntry rest k v

theorem keys_replaceEntry [DecidableEq κ] :
    ∀ (m : List (κ × α)) (k : κ) (v : α),
      (replaceEntry m k v).map Prod.fst = m.map Prod.fst
  | [], _, _ => rfl
  | (k1, v1) :: rest, k, v => by
    by_cases h : k1 = k
    · subst h
      simp [replaceEntry, keys_replaceEntry rest k1 v]
    · simp only [replaceEntry, if_neg h, List.map_cons]
      rw [keys_replaceEntry rest k v]

theorem alookup_append_left [DecidableEq κ] :
    ∀ (m l : List (κ × α)) (k : κ) (x : α),
      alookup m k = some x → alookup (m ++ l) k = some x
  | [], _, _, _, h => by simp [alookup] at h
  | (k1, v1) :: rest, l, k, x, h => by
    by_cases hk : k1 = k
    · subst hk; simp [alookup] at h ⊢; exact h
    · simp [alookup, hk] at h ⊢
      exact alookup_append_left rest l k x h

theorem alookup_append_right [DecidableEq κ] :
    ∀ (m l : List (κ × α)) (k : κ),
      alookup m k = none → alookup (m ++ l) k = alookup l k
  | [], _, _, _ => by simp
  | (k1, v1) :: rest, l, k, h => by
    by_cases hk : k1 = k
    · subst hk; simp [alookup] at h
    · simp [alookup, hk] at h ⊢
      exact alookup_append_right rest l k h

theorem keys_nodup_append_single [DecidableEq κ] (m : List (κ × α)) (k : κ) (v : α)
    (hnodup : (m.map Prod.fst).Nodup) (hnone : alookup m k = none) :
    ((m ++ [(k, v)]).map Prod.fst).Nodup := by
  rw [List.map_append]
  rw [List.nodup_append]
  refine ⟨hnodup, by simp, ?_⟩
  intro a ha hb
  simp at hb
  subst hb
  exact ((alookup_eq_none m a).mp hnone) ha

/-- C8: for every enumerated device, OS-version normalization gives the
fixed fallback `9.3.0` to a simulator regardless of any reported version,
uses the reported `deviceOSVersion` as-is on a non-simulator device that
has one, gives the same fallback when neither applies, and a device that
individually fails (a null entry) is skipped without aborting the batch. -/
theorem C8_device_version_normalization
    (pre post : List (Option IIOSDeviceTarget)) (d : IIOSDeviceTarget) :
    IOSAdapter.processDeviceVersions (pre ++ some d :: post)
      = IOSAdapter.processDeviceVersions pre
          ++ IOSAdapter.normalizeDevice d :: IOSAdapter.processDeviceVersions post
    ∧ IOSAdapter.processDeviceVersions (pre ++ none :: post)
      = IOSAdapter.processDeviceVersions pre ++ IOSAdapter.processDeviceVersions post
    ∧ (d.deviceId = "SIMULATOR" → (IOSAdapter.normalizeDevice d).version = "9.3.0")
    ∧ (d.deviceId ≠ "SIMULATOR" → d.deviceOSVersion ≠ "" →
        (IOSAdapter.normalizeDevice d).version = d.deviceOSVersion)
    ∧ (d.deviceId ≠ "SIMULATOR" → d.deviceOSVersion = "" →
        (IOSAdapter.normalizeDevice d).version = "9.3.0")
    ∧ (IOSAdapter.normalizeDevice d).deviceId = d.deviceId := by
  have happ : ∀ (xs ys : List (Option IIOSDeviceTarget)),
      IOSAdapter.processDeviceVersions (xs ++ ys)
        = IOSAdapter.processDeviceVersions xs ++ IOSAdapter.processDeviceVersions ys := by
    intro xs
    induction xs with
    | nil => intro ys; simp [IOSAdapter.processDeviceVersions]
    | cons hd tl ih =>
      intro ys
      cases hd <;> simp [IOSAdapter.processDeviceVersions, ih]
  refine ⟨?_, ?_, ?_, ?_, ?_, rfl⟩
  · rw [happ]; simp [IOSAdapter.processDeviceVersions]
  · rw [happ]; simp [IOSAdapter.processDeviceVersions]
  · intro hsim; simp [IOSAdapter.normalizeDevice, hsim]
  · intro hsim hos; simp [IOSAdapter.normalizeDevice, hsim, hos]
  · intro hsim hos; simp [IOSAdapter.normalizeDevice, hsim, hos]

/-- C8 witness: a simulator reporting no OS version is normalized to the
fixed fallback version, concretely. -/
theorem C8_witness :
    (IOSAdapter.normalizeDevice simDev).version = "9.3.0" :=
  (C8_device_version_normalization [] [] simDev).2.2.1 (by decide)

/-- C7: once a live managed process handle exists, a second
`spawnProcess` call rejects with the "already started" condition and
leaves the first handle (and the whole process state) untouched. -/
theorem C7_spawn_already_started (st : Adapter.ProcState) (path : String)
    (ev : Adapter.SpawnEvent) (h : Nat) (hlive : st.proxyProc = some h) :
    Adapter.spawnProcess st path ev
      = (.rejected "adapter.spawnProcess.error: process already started", st)
    ∧ (Adapter.spawnProcess st path ev).2.proxyProc = some h := by
  constructor
  · simp [Adapter.spawnProcess, hlive]
  · simp [Adapter.spawnProcess, hlive]

/-- C7 witness: after a successful spawn, the second spawn call on the
resulting state rejects and keeps the first handle. -/
theorem C7_witness :
    Adapter.spawnProcess (Adapter.spawnProcess ⟨none, 7⟩ "/usr/bin/proxy" .started).2
        "/usr/bin/proxy" .started
      = (.rejected "adapter.spawnProcess.error: process already started",
         (Adapter.spawnProcess ⟨none, 7⟩ "/usr/bin/proxy" .started).2)
    ∧ (Adapter.spawnProcess (Adapter.spawnProcess ⟨none, 7⟩ "/usr/bin/proxy" .started).2
        "/usr/bin/proxy" .started).2.proxyProc = some 7 :=
  C7_spawn_already_started
    (Adapter.spawnProcess ⟨none, 7⟩ "/usr/bin/proxy" .started).2
    "/usr/bin/proxy" .started 7 (by decide)

/-- C3: every malformed discovery response — timeout, network error,
missing response, HTTP status other than 200, empty body, non-JSON body,
or JSON that is not an array — makes `Adapter.getTargets` resolve with an
empty list and leave the adapter state untouched. -/
theorem C3_getTargets_malformed_empty (st : AdapterState)
    (metadata : Option IIOSDeviceTarget) :
    Adapter.getTargets st .timeout metadata = ([], st)
    ∧ Adapter.getTargets st .err metadata = ([], st)
    ∧ Adapter.getTargets st .noResp metadata = ([], st)
    ∧ (∀ (status : Nat) (body : Option Adapter.BodyVal), status ≠ 200 →
        Adapter.getTargets st (.resp status body) metadata = ([], st))
    ∧ Adapter.getTargets st (.resp 200 none) metadata = ([], st)
    ∧ Adapter.getTargets st (.resp 200 (some .invalid)) metadata = ([], st)
    ∧ Adapter.getTargets st (.resp 200 (some .notArray)) metadata = ([], st) := by
  refine ⟨rfl, rfl, rfl, ?_, rfl, rfl, rfl⟩
  intro status body hstatus
  simp [Adapter.getTargets, hstatus]

/-- C3 witness: an HTTP 404 with no body yields the empty list on the
sample adapter. -/
theorem C3_witness :
    Adapter.getTargets leafSt0 (.resp 404 none) none = ([], leafSt0) :=
  (C3_getTargets_malformed_empty leafSt0 none).2.2.2.1 404 none (by decide)


/-- C4 counterexample: version string "12.1" has major version 12, which
is at least 12, yet selection returns the middle-generation translator
(`IOS9Protocol`), not the newest one — refuting the claim's "major
version ≥ 12 → newest translator" clause. -/
theorem C4_counterexample :
    jsSplitChar "12.1" '.' = ["12", "1"]
    ∧ jsParseInt "12" = some 12
    ∧ (12 : Int) ≥ 12
    ∧ IOSAdapter.getProtocolFor "12.1" true = some IOSProtocol.ios9
    ∧ IOSProtocol.ios9 ≠ IOSProtocol.ios12 := by
  refine ⟨by decide, by decide, by decide, by decide, by decide⟩

/-- C4 (amended): translator selection returns the legacy translator when
the parsed major version is at most 8; the newest translator only when a
minor component exists and parses and either the major version exceeds 12
or equals 12 with minor at least 2; and the middle-generation translator
in every other case, including every version string that fails to parse
(also the fallback on any error during selection). -/
theorem C4_protocol_selection_amended (version : String) :
    IOSAdapter.getProtocolFor version true = some (IOSAdapter.protocolChoice version) := by
  unfold IOSAdapter.getProtocolFor IOSAdapter.protocolChoice
  by_cases hv : version = ""
  · subst hv
    decide
  · simp only [if_neg hv]
    cases hparts : jsSplitChar version '.' with
    | nil => simp [jsParseInt]
    | cons majorStr rest =>
      cases hmaj : jsParseInt majorStr with
      | none => simp [hmaj]
      | some major =>
        by_cases h8 : major ≤ 8
        · simp [hmaj, h8]
        · simp only [hmaj, if_neg h8]
          cases rest with
          | nil => simp [hmaj, h8]
          | cons minorStr more =>
            cases hmin : jsParseInt minorStr with
            | none => simp [hmaj, hmin, h8]
            | some minor =>
              have hiff : (12 < major ∨ 12 ≤ major ∧ 2 ≤ minor)
                  ↔ (12 < major ∨ major = 12 ∧ 2 ≤ minor) := by omega
              by_cases h12 : 12 < major ∨ major = 12 ∧ 2 ≤ minor
              · simp [hmaj, hmin, h8, hiff, h12]
              · simp [hmaj, hmin, h8, hiff, h12]



/-- Behavior of one `Adapter.connectTo` call on a known Target Id: it
returns a session bound to the supplied client socket, leaves the
Descriptor Registry unchanged, registers the returned session under the
Target Id, keeps the Session Registry keys distinct, and — when a session
already existed for that Target Id — returns exactly that session with
its client side rebound, establishing no new backend connection. -/
theorem connectTo_known_spec (st : AdapterState) (targetId : String) (w : Nat)
    (d : ITarget)
    (htid : targetId ≠ "")
    (hd : alookup st.dataMap targetId = some d)
    (hnodup : (st.targetMap.map Prod.fst).Nodup) :
    ∃ s : Target,
      (Adapter.connectTo st targetId (some w)).1 = some s
      ∧ s.clientSocket = w
      ∧ (Adapter.connectTo st targetId (some w)).2.dataMap = st.dataMap
      ∧ alookup (Adapter.connectTo st targetId (some w)).2.targetMap targetId = some s
      ∧ (((Adapter.connectTo st targetId (some w)).2.targetMap).map Prod.fst).Nodup
      ∧ (∀ ex, alookup st.targetMap targetId = some ex →
          s = { ex with clientSocket := w }
          ∧ (Adapter.connectTo st targetId (some w)).2.backendConnections
              = st.backendConnections) := by
  rcases hm : alookup st.targetMap targetId with _ | ex
  · have h1 : Adapter.connectTo st targetId (some w) =
        (some { sid := (st.aid, st.nextSid), targetId := targetId, data := d,
                clientSocket := w, endpoint := d.webSocketDebuggerUrl },
         { st with targetMap := st.targetMap ++ [(targetId,
             { sid := (st.aid, st.nextSid), targetId := targetId, data := d,
               clientSocket := w, endpoint := d.webSocketDebuggerUrl })]
                   nextSid := st.nextSid + 1
                   backendConnections := st.backendConnections + 1 }) := by
      simp [Adapter.connectTo, if_neg htid, hd, hm]
    refine ⟨{ sid := (st.aid, st.nextSid), targetId := targetId, data := d,
              clientSocket := w, endpoint := d.webSocketDebuggerUrl },
            ?_, rfl, ?_, ?_, ?_, ?_⟩
    · rw [h1]
    · rw [h1]
    · rw [h1]
      show alookup (st.targetMap ++ _) targetId = _
      rw [alookup_append_right st.targetMap _ targetId hm]
      simp [alookup]
    · rw [h1]
      show ((st.targetMap ++ _).map Prod.fst).Nodup
      exact keys_nodup_append_single st.targetMap targetId _ hnodup hm
    · intro ex heq
      cases heq
  · have h1 : Adapter.connectTo st targetId (some w) =
        (some { ex with clientSocket := w },
         { st with targetMap := replaceEntry st.targetMap targetId ({ ex with clientSocket := w }) }) := by
      simp [Adapter.connectTo, if_neg htid, hd, hm]
    refine ⟨{ ex with clientSocket := w }, ?_, rfl, ?_, ?_, ?_, ?_⟩
    · rw [h1]
    · rw [h1]
    · rw [h1]
      show alookup (replaceEntry st.targetMap targetId _) targetId = _
      rw [alookup_replaceEntry]
      simp [hm]
    · rw [h1]
      show ((replaceEntry st.targetMap targetId _).map Prod.fst).Nodup
      rw [keys_replaceEntry]
      exact hnodup
    · intro ex2 heq
      injection heq with h
      subst h
      exact ⟨rfl, by rw [h1]⟩

/-- C1: two sequential `connectTo` calls with the same known Target Id
both return a session; the second returns the identical session object
(the first one, with only its client side rebound to the new socket),
establishes no second backend connection, and the Session Registry keeps
at most one live session per Target Id (its keys stay distinct). -/
theorem C1_connect_twice_reuses_session (st : AdapterState) (targetId : String)
    (w1 w2 : Nat)
    (htid : targetId ≠ "")
    (hdata : (alookup st.dataMap targetId).isSome)
    (hnodup : (st.targetMap.map Prod.fst).Nodup) :
    ∃ s1 s2 : Target,
      (Adapter.connectTo st targetId (some w1)).1 = some s1
      ∧ (Adapter.connectTo (Adapter.connectTo st targetId (some w1)).2 targetId
          (some w2)).1 = some s2
      ∧ s2 = { s1 with clientSocket := w2 }
      ∧ (Adapter.connectTo (Adapter.connectTo st targetId (some w1)).2 targetId
          (some w2)).2.backendConnections
          = (Adapter.connectTo st targetId (some w1)).2.backendConnections
      ∧ ((Adapter.connectTo (Adapter.connectTo st targetId (some w1)).2 targetId
          (some w2)).2.targetMap.map Prod.fst).Nodup := by
  obtain ⟨d, hd⟩ := Option.isSome_iff_exists.mp hdata
  obtain ⟨s1, hr1, hc1, hdm1, hl1, hn1, hreb1⟩ :=
    connectTo_known_spec st targetId w1 d htid hd hnodup
  obtain ⟨s2, hr2, hc2, hdm2, hl2, hn2, hreb2⟩ :=
    connectTo_known_spec (Adapter.connectTo st targetId (some w1)).2 targetId w2 d htid
      (by rw [hdm1]; exact hd) hn1
  obtain ⟨hs2eq, hb2⟩ := hreb2 s1 hl1
  exact ⟨s1, s2, hr1, hr2, hs2eq, hb2, hn2⟩


/-- C1 witness: the sample leaf adapter, connected twice to target `t1`
with client sockets 5 and then 7. -/
theorem C1_witness :
    ∃ s1 s2 : Target,
      (Adapter.connectTo leafSt0 "t1" (some 5)).1 = some s1
      ∧ (Adapter.connectTo (Adapter.connectTo leafSt0 "t1" (some 5)).2 "t1"
          (some 7)).1 = some s2
      ∧ s2 = { s1 with clientSocket := 7 }
      ∧ (Adapter.connectTo (Adapter.connectTo leafSt0 "t1" (some 5)).2 "t1"
          (some 7)).2.backendConnections
          = (Adapter.connectTo leafSt0 "t1" (some 5)).2.backendConnections
      ∧ ((Adapter.connectTo (Adapter.connectTo leafSt0 "t1" (some 5)).2 "t1"
          (some 7)).2.targetMap.map Prod.fst).Nodup :=
  C1_connect_twice_reuses_session leafSt0 "t1" 5 7 (by decide) (by decide) (by decide)


/-- Folding list concatenation over a list of lists appends their
flattening to the accumulator. -/
theorem foldl_append_eq_join (ls : List (List ITarget)) :
    ∀ acc : List ITarget, ls.foldl (fun all ts => all ++ ts) acc = acc ++ ls.flatten := by
  induction ls with
  | nil => intro acc; simp
  | cons hd tl ih => intro acc; simp [ih, List.append_assoc]

/-- The collection's discovery result is the flattening of the per-child
promise results, in registry iteration order. -/
theorem getTargets_eq_join (children : List (String × AdapterCollection.ChildBehavior))
    (meta : AdapterCollection.MetaArg) :
    AdapterCollection.getTargets children meta
      = (AdapterCollection.collectPromises children 0 meta).flatten := by
  unfold AdapterCollection.getTargets
  by_cases hemp : (AdapterCollection.collectPromises children 0 meta).isEmpty
  · simp [hemp, List.isEmpty_iff.mp hemp]
  · simp [hemp, foldl_append_eq_join]

/-- The per-child promise list splits along a split of the child registry,
with the index offset advanced by the prefix length. -/
theorem collectPromises_append (xs : List (String × AdapterCollection.ChildBehavior)) :
    ∀ (ys : List (String × AdapterCollection.ChildBehavior)) (i : Nat)
      (meta : AdapterCollection.MetaArg),
      AdapterCollection.collectPromises (xs ++ ys) i meta
        = AdapterCollection.collectPromises xs i meta
          ++ AdapterCollection.collectPromises ys (i + xs.length) meta := by
  induction xs with
  | nil => intro ys i meta; simp [AdapterCollection.collectPromises]
  | cons hd tl ih =>
    intro ys i meta
    simp only [List.cons_append, AdapterCollection.collectPromises, List.length_cons,
      List.append_eq]
    rw [ih ys (i + 1) meta]
    rw [show i + 1 + tl.length = i + (tl.length + 1) by omega]

/-- The per-child promise list is the indexed map of each child's
contribution under its per-index metadata. -/
theorem collectPromises_eq_enumFrom (cs : List (String × AdapterCollection.ChildBehavior)) :
    ∀ (i : Nat) (meta : AdapterCollection.MetaArg),
      AdapterCollection.collectPromises cs i meta
        = (cs.enumFrom i).map (fun p =>
            AdapterCollection.childContribution p.2.2 (AdapterCollection.childMeta meta p.1)) := by
  induction cs with
  | nil => intro i meta; simp [AdapterCollection.collectPromises]
  | cons hd tl ih =>
    intro i meta
    simp [AdapterCollection.collectPromises, AdapterCollection.childContribution,
      List.enumFrom, ih]

/-- C5: a child whose discovery always fails contributes nothing: the
collection's result is the concatenation, in registry order, of the other
children's contributions (indices undisturbed); in particular a
three-child collection whose middle child fails returns the
concatenation of the first and third children's results. -/
theorem C5_child_failure_isolated
    (pre post : List (String × AdapterCollection.ChildBehavior)) (name : String)
    (beh : AdapterCollection.ChildBehavior) (meta : AdapterCollection.MetaArg)
    (hfail : ∀ m, ∃ e, beh m = Except.error e) :
    AdapterCollection.getTargets (pre ++ (name, beh) :: post) meta
      = (AdapterCollection.collectPromises pre 0 meta).flatten
        ++ (AdapterCollection.collectPromises post (pre.length + 1) meta).flatten
    ∧ AdapterCollection.getTargets
        [("a", fun _ => Except.ok [tA1, tA2]), ("b", fun _ => Except.error "boom"),
         ("c", fun _ => Except.ok [tC1])] .nullV
      = [tA1, tA2, tC1] := by
  constructor
  · rw [getTargets_eq_join, collectPromises_append]
    obtain ⟨e, he⟩ := hfail (AdapterCollection.childMeta meta pre.length)
    simp [AdapterCollection.collectPromises, he, Nat.zero_add]
  · rfl

/-- C5 witness: the concrete three-child collection, with the failing
child in the middle, yields the other two children's concatenated
contributions. -/
theorem C5_witness :
    AdapterCollection.getTargets
        [("a", fun _ => Except.ok [tA1, tA2]),
         ("b", fun _ => Except.error "boom"),
         ("c", fun _ => Except.ok [tC1])] .nullV
      = (AdapterCollection.collectPromises [("a", fun _ => Except.ok [tA1, tA2])] 0 .nullV).flatten
        ++ (AdapterCollection.collectPromises [("c", fun _ => Except.ok [tC1])] 2 .nullV).flatten :=
  (C5_child_failure_isolated [("a", fun _ => Except.ok [tA1, tA2])]
    [("c", fun _ => Except.ok [tC1])] "b" (fun _ => Except.error "boom") .nullV
    (fun _ => ⟨"boom", rfl⟩)).1

/-- C9 (amended): the collection's discovery invokes only its children —
each child's contribution computed from its own discovery, with the Nth
child (in registry iteration order) receiving the Nth entry of an array
metadata argument (none beyond its end) and otherwise every child
receiving the same single metadata value (none when absent) — and the
result is the in-order concatenation of those contributions. -/
theorem C9_getTargets_amended
    (children : List (String × AdapterCollection.ChildBehavior))
    (meta : AdapterCollection.MetaArg) :
    AdapterCollection.getTargets children meta
      = ((children.enum).map (fun p =>
          AdapterCollection.childContribution p.2.2 (AdapterCollection.childMeta meta p.1))).flatten := by
  rw [getTargets_eq_join]
  congr 1
  exact collectPromises_eq_enumFrom children 0 meta

/-- C9 counterexample: the collection's own discovery is never invoked —
a collection with no children returns the empty list even while the
collection's own (inherited, unused) adapter-level discovery of a healthy
response would contribute a descriptor. -/
theorem C9_counterexample :
    AdapterCollection.getTargets [] (.single dev0) = []
    ∧ (Adapter.getTargets leafSt0 (.resp 200 (some (.arrayOf [some rawT0]))) (some dev0)).1.length = 1 := by
  constructor
  · rfl
  · rfl



/-- Scanning for an absent character finds nothing. -/
theorem jsIndexOfAux_of_not_mem (c : Char) :
    ∀ (cs : List Char) (p : Nat), c ∉ cs → jsIndexOfAux c cs p = none
  | [], _, _ => rfl
  | x :: xs, p, h => by
    have hx : x ≠ c := fun he => h (he ▸ List.mem_cons_self x xs)
    simp only [jsIndexOfAux, if_neg hx]
    exact jsIndexOfAux_of_not_mem c xs (p + 1) (fun hm => h (List.mem_cons_of_mem x hm))

/-- Scanning finds the first occurrence of the character, at the offset
of the clean prefix. -/
theorem jsIndexOfAux_first (c : Char) :
    ∀ (xs ys : List Char) (p : Nat), c ∉ xs →
      jsIndexOfAux c (xs ++ c :: ys) p = some (p + xs.length)
  | [], ys, p, _ => by simp [jsIndexOfAux]
  | x :: xs, ys, p, h => by
    have hx : x ≠ c := fun he => h (he ▸ List.mem_cons_self x xs)
    simp only [List.cons_append, jsIndexOfAux, if_neg hx, List.append_eq]
    rw [jsIndexOfAux_first c xs ys (p + 1) (fun hm => h (List.mem_cons_of_mem x hm))]
    congr 1
    simp
    omega

/-- Taking the length of the left part of an append returns it. -/
theorem take_len_append : ∀ (xs ys : List α), (xs ++ ys).take xs.length = xs
  | [], _ => rfl
  | x :: xs, ys => by simp [take_len_append xs ys]

/-- Dropping the length of the left part of an append returns the right
part. -/
theorem drop_len_append : ∀ (xs ys : List α), (xs ++ ys).drop xs.length = ys
  | [], _ => rfl
  | x :: xs, ys => by simp [drop_len_append xs ys]

/-- A packed string is empty exactly when its character list is. -/
theorem mk_eq_empty_iff (cs : List Char) : String.mk cs = "" ↔ cs = [] := by
  rw [String.ext_iff]

/-- Decoding, character-list view: an address whose data is a slash, a
slash-free namespace piece, a slash, and a non-empty remainder decodes to
the leading-slash-included namespace piece and the verbatim remainder. -/
theorem getWebSocketId_data (url : String) (pre rest : List Char)
    (hdata : url.data = '/' :: pre ++ '/' :: rest)
    (hpre : '/' ∉ pre) (hrest : rest ≠ []) :
    AdapterCollection.getWebSocketId url
      = some (String.mk ('/' :: pre), String.mk rest) := by
  have hne : url ≠ "" := by
    intro he
    rw [he] at hdata
    cases hdata
  have hidx : jsIndexOfFrom url '/' 1 = some (1 + pre.length) := by
    unfold jsIndexOfFrom
    rw [hdata]
    show jsIndexOfAux '/' (pre ++ '/' :: rest) 1 = _
    exact jsIndexOfAux_first '/' pre rest 1 hpre
  unfold AdapterCollection.getWebSocketId
  rw [if_neg hne]
  have hsub1 : jsSubstr url 0 (1 + pre.length) = String.mk ('/' :: pre) := by
    unfold jsSubstr
    rw [hdata]
    show String.mk ((('/' :: pre ++ '/' :: rest)).take (1 + pre.length)) = _
    have : ('/' :: pre ++ '/' :: rest).take (1 + pre.length) = '/' :: pre := by
      rw [show (1 : Nat) + pre.length = ('/' :: pre).length by simp; omega]
      rw [show ('/' :: pre ++ '/' :: rest) = ('/' :: pre) ++ '/' :: rest by simp]
      exact take_len_append _ _
    rw [this]
  have hsub2 : jsSubstrFrom url (1 + pre.length + 1) = String.mk rest := by
    unfold jsSubstrFrom
    rw [hdata]
    have : ('/' :: pre ++ '/' :: rest).drop (1 + pre.length + 1) = rest := by
      rw [show (1 : Nat) + pre.length + 1 = ('/' :: pre ++ ['/']).length by simp; omega]
      rw [show ('/' :: pre ++ '/' :: rest) = ('/' :: pre ++ ['/']) ++ rest by simp]
      exact drop_len_append _ _
    rw [this]
  simp only [hidx, hsub1, hsub2]
  rw [if_neg]
  intro hor
  rcases hor with h1 | h2
  · rw [mk_eq_empty_iff] at h1
    cases h1
  · rw [mk_eq_empty_iff] at h2
    exact hrest h2

/-- Decoding fails when the address has no separator at offset 1 or
later. -/
theorem getWebSocketId_none_of_no_slash (url : String)
    (h : '/' ∉ url.data.drop 1) : AdapterCollection.getWebSocketId url = none := by
  unfold AdapterCollection.getWebSocketId
  by_cases he : url = ""
  · rw [if_pos he]
  · rw [if_neg he]
    have : jsIndexOfFrom url '/' 1 = none := jsIndexOfAux_of_not_mem '/' _ 1 h
    rw [this]

/-- Decoding fails when the remainder after the separator is empty. -/
theorem getWebSocketId_none_trailing (url : String) (pre : List Char)
    (hdata : url.data = '/' :: pre ++ ['/'])
    (hpre : '/' ∉ pre) : AdapterCollection.getWebSocketId url = none := by
  have hne : url ≠ "" := by
    intro he
    rw [he] at hdata
    cases hdata
  have hidx : jsIndexOfFrom url '/' 1 = some (1 + pre.length) := by
    unfold jsIndexOfFrom
    rw [hdata]
    show jsIndexOfAux '/' (pre ++ '/' :: []) 1 = _
    exact jsIndexOfAux_first '/' pre [] 1 hpre
  unfold AdapterCollection.getWebSocketId
  rw [if_neg hne]
  have hsub2 : jsSubstrFrom url (1 + pre.length + 1) = String.mk [] := by
    unfold jsSubstrFrom
    rw [hdata]
    have : ('/' :: pre ++ ['/']).drop (1 + pre.length + 1) = [] := by
      rw [show (1 : Nat) + pre.length + 1 = ('/' :: pre ++ ['/']).length by simp; omega]
      exact List.drop_length _
    rw [this]
  simp only [hidx, hsub2]
  simp

/-- C2 counterexample: address `/A/B/C` decodes with namespace piece
`/A` — the leading slash included, everything from offset 0 (not 1) up to
the second slash — refuting the claim that the namespace id is `A`. -/
theorem C2_counterexample :
    AdapterCollection.getWebSocketId "/A/B/C" = some ("/A", "B/C")
    ∧ "/A" ≠ "A" := by
  exact ⟨by decide, by decide⟩

/-- C2 (amended): decoding an inbound address yields as namespace piece
the prefix from offset 0 up to (but excluding) the first `/` at offset 1
or later — the leading slash included, so `/A/B/C` gives `/A` — and as
target id everything strictly after that slash verbatim (further slashes
included); decoding fails when no such separator exists (as in `/A`) or
when the target id piece is empty. -/
theorem C2_decode_amended :
    (∀ ns rest : String, '/' ∉ ns.data → rest ≠ "" →
      AdapterCollection.getWebSocketId ("/" ++ ns ++ "/" ++ rest)
        = some ("/" ++ ns, rest))
    ∧ (∀ url : String, '/' ∉ url.data.drop 1 →
        AdapterCollection.getWebSocketId url = none)
    ∧ (∀ ns : String, '/' ∉ ns.data →
        AdapterCollection.getWebSocketId ("/" ++ ns ++ "/") = none) := by
  refine ⟨?_, ?_, ?_⟩
  · intro ns rest hns hrest
    have hdata : ("/" ++ ns ++ "/" ++ rest).data = '/' :: ns.data ++ '/' :: rest.data := by
      simp [String.data_append]
    have h := getWebSocketId_data ("/" ++ ns ++ "/" ++ rest) ns.data rest.data hdata hns
      (by intro he; exact hrest (by rw [String.ext_iff, he]))
    rw [h]
    have h1 : String.mk ('/' :: ns.data) = "/" ++ ns := by
      rw [String.ext_iff, String.data_append]
      rfl
    have h2 : String.mk rest.data = rest := by cases rest; rfl
    rw [h1, h2]
  · intro url h
    exact getWebSocketId_none_of_no_slash url h
  · intro ns hns
    refine getWebSocketId_none_trailing ("/" ++ ns ++ "/") ns.data ?_ hns
    simp [String.data_append]

/-- C2 witness: `/A/B/C` decodes to `(/A, B/C)` and `/A` fails to
decode. -/
theorem C2_witness :
    AdapterCollection.getWebSocketId ("/" ++ "A" ++ "/" ++ "B/C")
      = some ("/" ++ "A", "B/C")
    ∧ AdapterCollection.getWebSocketId "/A" = none :=
  ⟨C2_decode_amended.1 "A" "B/C" (by decide) (by decide),
   C2_decode_amended.2.1 "/A" (by decide)⟩



/-- One device-creation step either leaves the registry keys unchanged or
appends exactly the derived Namespace Id (parent id, underscore, device
id). -/
theorem createDeviceStep_keys (parentId proxyUrl : String)
    (reg : List (String × AdapterState)) (d : IIOSDeviceTarget) :
    (IOSAdapter.createDeviceStep parentId proxyUrl reg d).map Prod.fst = reg.map Prod.fst
    ∨ (IOSAdapter.createDeviceStep parentId proxyUrl reg d).map Prod.fst
        = reg.map Prod.fst ++ [parentId ++ "_" ++ d.deviceId] := by
  unfold IOSAdapter.createDeviceStep
  dsimp only
  repeat' split
  all_goals first
  | exact Or.inl rfl
  | (right; simp)

/-- Every key present after device-adapter creation is an original
registry key or the derived Namespace Id of one of the processed
devices. -/
theorem createDeviceAdapters_keys (parentId proxyUrl : String) :
    ∀ (devices : List IIOSDeviceTarget) (registry : List (String × AdapterState)) (k : String),
      k ∈ (IOSAdapter.createDeviceAdapters parentId proxyUrl registry devices).map Prod.fst →
      k ∈ registry.map Prod.fst ∨ ∃ d ∈ devices, k = parentId ++ "_" ++ d.deviceId := by
  intro devices
  induction devices with
  | nil => intro registry k hk; exact Or.inl hk
  | cons d rest ih =>
    intro registry k hk
    have hk2 : k ∈ (IOSAdapter.createDeviceStep parentId proxyUrl registry d).map Prod.fst
        ∨ ∃ d2 ∈ rest, k = parentId ++ "_" ++ d2.deviceId :=
      ih (IOSAdapter.createDeviceStep parentId proxyUrl registry d) k hk
    rcases hk2 with hmem | ⟨d2, hd2, he⟩
    · rcases createDeviceStep_keys parentId proxyUrl registry d with heq | heq
      · rw [heq] at hmem; exact Or.inl hmem
      · rw [heq] at hmem
        rcases List.mem_append.mp hmem with h1 | h2
        · exact Or.inl h1
        · right
          exact ⟨d, List.mem_cons_self d rest, by simpa using h2⟩
    · exact Or.inr ⟨d2, List.mem_cons_of_mem d hd2, he⟩


/-- C10: a device child's Namespace Id registered by the device-discovery
collection is the parent's id, an underscore, and the device id; an
inbound address for a device target — that key, a slash, and the target
id — decodes in a single step into exactly the registry key and the
verbatim target id; and the collection's routing hands that verbatim
remainder straight to the leaf child's `connectTo` as its Target Id, so
no second-level address decoding occurs for device targets. -/
theorem C10_device_address_single_step
    (parentId p deviceId tid proxyUrl : String)
    (registry : List (String × AdapterState)) (devices : List IIOSDeviceTarget)
    (hparent : parentId = "/" ++ p) (hp : '/' ∉ p.data) (hdev : '/' ∉ deviceId.data)
    (htid : tid ≠ "") :
    (∀ k, k ∈ (IOSAdapter.createDeviceAdapters parentId proxyUrl registry devices).map Prod.fst →
        k ∈ registry.map Prod.fst ∨ ∃ d ∈ devices, k = parentId ++ "_" ++ d.deviceId)
    ∧ AdapterCollection.getWebSocketId (parentId ++ "_" ++ deviceId ++ "/" ++ tid)
        = some (parentId ++ "_" ++ deviceId, tid)
    ∧ (∀ (children : List (String × AdapterState)) (childSt : AdapterState) (w : Nat),
        alookup children (parentId ++ "_" ++ deviceId) = some childSt →
        AdapterCollection.connectTo children (parentId ++ "_" ++ deviceId ++ "/" ++ tid) (some w)
          = ((Adapter.connectTo childSt tid (some w)).1,
             AdapterCollection.updateChild children (parentId ++ "_" ++ deviceId)
               (Adapter.connectTo childSt tid (some w)).2)) := by
  subst hparent
  have hpre : '/' ∉ p.data ++ '_' :: deviceId.data := by
    intro hmem
    rcases List.mem_append.mp hmem with h1 | h2
    · exact hp h1
    · rcases List.mem_cons.mp h2 with h3 | h4
      · cases h3
      · exact hdev h4
  have hdata : ("/" ++ p ++ "_" ++ deviceId ++ "/" ++ tid).data
      = '/' :: ((p.data ++ '_' :: deviceId.data) ++ '/' :: tid.data) := by
    simp [String.data_append]
  have hrest : tid.data ≠ [] := by
    intro he
    exact htid (by rw [String.ext_iff, he])
  have hdecode := getWebSocketId_data ("/" ++ p ++ "_" ++ deviceId ++ "/" ++ tid)
    (p.data ++ '_' :: deviceId.data) tid.data hdata hpre hrest
  have hkey : String.mk ('/' :: (p.data ++ '_' :: deviceId.data)) = "/" ++ p ++ "_" ++ deviceId := by
    rw [String.ext_iff]
    simp [String.data_append]
  have htid2 : String.mk tid.data = tid := by cases tid; rfl
  rw [hkey, htid2] at hdecode
  refine ⟨?_, hdecode, ?_⟩
  · intro k hk
    exact createDeviceAdapters_keys ("/" ++ p) proxyUrl devices registry k hk
  · intro children childSt w hlook
    have hne : ("/" ++ p ++ "_" ++ deviceId ++ "/" ++ tid) ≠ "" := by
      intro he
      have := congrArg String.data he
      rw [hdata] at this
      cases this
    have hkeyne : ("/" ++ p ++ "_" ++ deviceId) ≠ "" := by
      intro he
      have := congrArg String.data he
      simp [String.data_append] at this
    unfold AdapterCollection.connectTo
    rw [if_neg hne]
    simp only [hdecode, hlook]
    rw [if_neg]
    intro hor
    rcases hor with h1 | h2
    · exact hkeyne h1
    · exact htid h2

/-- C10 witness: with parent `/ios` and device `d1`, the address
`/ios_d1/page/1` decodes to the registry key `/ios_d1` and the verbatim
target id `page/1`, and every registered key derives from a device. -/
theorem C10_witness :
    AdapterCollection.getWebSocketId ("/ios" ++ "_" ++ "d1" ++ "/" ++ "page/1")
      = some ("/ios" ++ "_" ++ "d1", "page/1")
    ∧ (∀ k, k ∈ (IOSAdapter.createDeviceAdapters "/ios" "ws://localhost:9000" [] [dev0]).map Prod.fst →
        k ∈ ([] : List (String × AdapterState)).map Prod.fst
        ∨ ∃ d ∈ [dev0], k = "/ios" ++ "_" ++ d.deviceId) :=
  ⟨(C10_device_address_single_step "/ios" "ios" "d1" "page/1" "ws://localhost:9000"
      [] [dev0] rfl (by decide) (by decide) (by decide)).2.1,
   (C10_device_address_single_step "/ios" "ios" "d1" "page/1" "ws://localhost:9000"
      [] [dev0] rfl (by decide) (by decide) (by decide)).1⟩


/-- Translator selection with a session present always yields a
translator. -/
theorem getProtocolFor_true_isSome (v : String) :
    (IOSAdapter.getProtocolFor v true).isSome := by
  unfold IOSAdapter.getProtocolFor
  repeat' split
  all_goals simp_all

/-- C6: for every session returned by the device-discovery collection's
`connectTo`, existing Protocol Bindings are never changed or rebound; a
session already bound leaves the binding map untouched; a first-seen
session whose stored metadata carries a version gets bound to the
translator selected from that version; and when selection cannot run
(missing metadata or version) the session is still returned with the
binding map unchanged. -/
theorem C6_protocol_bound_once (st : IOSAdapter.IOSState) (url : String) (ws : Option Nat) :
    (∀ k pr, alookup st.protocolMap k = some pr →
        alookup (IOSAdapter.connectTo st url ws).2.protocolMap k = some pr)
    ∧ (∀ t, (IOSAdapter.connectTo st url ws).1 = some t →
        (alookup st.protocolMap t.sid).isSome →
        (IOSAdapter.connectTo st url ws).2.protocolMap = st.protocolMap)
    ∧ (∀ t dm, (IOSAdapter.connectTo st url ws).1 = some t →
        alookup st.protocolMap t.sid = none →
        t.data.metadata = some dm → dm.version ≠ "" →
        alookup (IOSAdapter.connectTo st url ws).2.protocolMap t.sid
          = IOSAdapter.getProtocolFor dm.version true)
    ∧ (∀ t, (IOSAdapter.connectTo st url ws).1 = some t →
        alookup st.protocolMap t.sid = none →
        (t.data.metadata = none ∨ ∃ dm, t.data.metadata = some dm ∧ dm.version = "") →
        (IOSAdapter.connectTo st url ws).2.protocolMap = st.protocolMap) := by
  by_cases hu : url = ""
  · have hres : IOSAdapter.connectTo st url ws = (none, st) := by
      simp [IOSAdapter.connectTo, hu]
    refine ⟨?_, ?_, ?_, ?_⟩
    · intro k pr h; rw [hres]; exact h
    · intro t ht; rw [hres] at ht; simp at ht
    · intro t dm ht; rw [hres] at ht; simp at ht
    · intro t ht; rw [hres] at ht; simp at ht
  · cases ws with
    | none =>
      have hres : IOSAdapter.connectTo st url none = (none, st) := by
        simp [IOSAdapter.connectTo, hu]
      refine ⟨?_, ?_, ?_, ?_⟩
      · intro k pr h; rw [hres]; exact h
      · intro t ht; rw [hres] at ht; simp at ht
      · intro t dm ht; rw [hres] at ht; simp at ht
      · intro t ht; rw [hres] at ht; simp at ht
    | some w =>
      rcases hcc : AdapterCollection.connectTo st.children url (some w) with ⟨t?, c2⟩
      cases t? with
      | none =>
        have hres : IOSAdapter.connectTo st url (some w)
            = (none, { st with children := c2 }) := by
          simp [IOSAdapter.connectTo, hu, hcc]
        refine ⟨?_, ?_, ?_, ?_⟩
        · intro k pr h; rw [hres]; exact h
        · intro t ht; rw [hres] at ht; simp at ht
        · intro t dm ht; rw [hres] at ht; simp at ht
        · intro t ht; rw [hres] at ht; simp at ht
      | some target =>
        by_cases hlook : (alookup st.protocolMap target.sid).isSome
        · have hres : IOSAdapter.connectTo st url (some w)
              = (some target, { children := c2, protocolMap := st.protocolMap }) := by
            simp [IOSAdapter.connectTo, hu, hcc, hlook]
          refine ⟨?_, ?_, ?_, ?_⟩
          · intro k pr h; rw [hres]; exact h
          · intro t ht _; rw [hres]
          · intro t dm ht hnone hmeta hv
            rw [hres] at ht; simp at ht; subst ht
            rw [hnone] at hlook; simp at hlook
          · intro t ht hnone hor; rw [hres]
        · cases hmeta0 : target.data.metadata with
          | none =>
            have hres : IOSAdapter.connectTo st url (some w)
                = (some target, { children := c2, protocolMap := st.protocolMap }) := by
              simp [IOSAdapter.connectTo, hu, hcc, hlook, hmeta0]
            refine ⟨?_, ?_, ?_, ?_⟩
            · intro k pr h; rw [hres]; exact h
            · intro t ht _; rw [hres]
            · intro t dm ht hnone hmeta hv
              rw [hres] at ht; simp at ht; subst ht
              rw [hmeta0] at hmeta; cases hmeta
            · intro t ht hnone hor; rw [hres]
          | some dv =>
            by_cases hv0 : dv.version = ""
            · have hres : IOSAdapter.connectTo st url (some w)
                  = (some target, { children := c2, protocolMap := st.protocolMap }) := by
                simp [IOSAdapter.connectTo, hu, hcc, hlook, hmeta0, hv0]
              refine ⟨?_, ?_, ?_, ?_⟩
              · intro k pr h; rw [hres]; exact h
              · intro t ht _; rw [hres]
              · intro t dm ht hnone hmeta hv
                rw [hres] at ht; simp at ht; subst ht
                rw [hmeta0] at hmeta
                injection hmeta with h4
                subst h4
                exact absurd hv0 hv
              · intro t ht hnone hor; rw [hres]
            · rcases hgp : IOSAdapter.getProtocolFor dv.version true with _ | protocol
              · have := getProtocolFor_true_isSome dv.version
                rw [hgp] at this
                simp at this
              · have hres : IOSAdapter.connectTo st url (some w)
                    = (some target, { children := c2, protocolMap := st.protocolMap ++ [(target.sid, protocol)] }) := by
                  simp [IOSAdapter.connectTo, hu, hcc, hlook, hmeta0, hv0, hgp]
                refine ⟨?_, ?_, ?_, ?_⟩
                · intro k pr h; rw [hres]
                  exact alookup_append_left st.protocolMap _ k pr h
                · intro t ht hsome
                  rw [hres] at ht; simp at ht; subst ht
                  exact absurd hsome hlook
                · intro t dm ht hnone hmeta hv
                  rw [hres] at ht; simp at ht; subst ht
                  rw [hres]
                  show alookup (st.protocolMap ++ [(target.sid, protocol)]) target.sid = _
                  rw [alookup_append_right st.protocolMap _ target.sid hnone]
                  rw [hmeta0] at hmeta
                  injection hmeta with h4
                  subst h4
                  simp [alookup, hgp]
                · intro t ht hnone hor
                  rw [hres] at ht; simp at ht; subst ht
                  rcases hor with h1 | ⟨dm, h2, h3⟩
                  · rw [hmeta0] at h1; cases h1
                  · rw [hmeta0] at h2
                    injection h2 with h4
                    subst h4
                    exact absurd h3 hv0


/-- C6 witness: connecting the sample collection to `/ios_d1/t1` binds
the returned session to the translator selected from its device's
version. -/
theorem C6_witness :
    alookup (IOSAdapter.connectTo iosSt0 "/ios_d1/t1" (some 3)).2.protocolMap expT0.sid
      = IOSAdapter.getProtocolFor dev0.version true :=
  (C6_protocol_bound_once iosSt0 "/ios_d1/t1" (some 3)).2.2.1 expT0 dev0
    (by decide) (by decide) (by decide) (by decide)


end RDA
